import Mathlib

/-!
Shallow embedding of the note-graph engine of this repository:
content parsing helpers, the node/edge repository mutations, the
link-resolver queries, and the voice-note ingestion pipeline, together
with theorems settling the frozen claims about them.
-/

namespace Memex

/-! ## Content Parser (src/convex/canvas.ts helpers, src wiki-link module) -/

/-- Whitespace class used to model the JavaScript `\s` regex class and
`String.prototype.trim` on the ASCII inputs this engine handles. -/
def isJsSpace (c : Char) : Bool :=
  c = ' ' || c = '\t' || c = '\n' || c = '\r' || c = '\x0b' || c = '\x0c'

/-- Model of one step of the global regex replace `/<[^>]*>/g`: given the
characters after a `<`, drop through the first `>` (the regex match ends
there); `none` when no `>` follows, in which case the regex does not match
at this `<`. -/
def dropTag : List Char → Option (List Char)
  | [] => none
  | c :: rest => if c = '>' then some rest else dropTag rest

/-- Fuel-indexed scanner behind `stripHtmlTags`; each recursive call moves
to a strictly shorter character list, so fuel equal to the list length is
always sufficient. -/
def stripHtmlTagsAux : Nat → List Char → List Char
  | 0, _ => []
  | _ + 1, [] => []
  | fuel + 1, c :: rest =>
    if c = '<' then
      match dropTag rest with
      | some rest2 => stripHtmlTagsAux fuel rest2
      | none => c :: stripHtmlTagsAux fuel rest
    else c :: stripHtmlTagsAux fuel rest

/-- Model of `firstLine.replace(/<[^>]*>/g, "")`: every maximal
`<`…first-following-`>` segment is removed; a `<` with no later `>` is kept
(the regex fails to match there and the scan advances one character). -/
def stripHtmlTags (l : List Char) : List Char :=
  stripHtmlTagsAux l.length l

/-- Model of `cleanLine.replace(/^#\s*/, "")`: strip one leading `#`
together with the following whitespace run. -/
def stripHeadingMark (l : List Char) : List Char :=
  match l with
  | c :: rest => if c = '#' then rest.dropWhile isJsSpace else l
  | [] => l

/-- Model of `String.prototype.trim`. -/
def trimChars (l : List Char) : List Char :=
  ((l.dropWhile isJsSpace).reverse.dropWhile isJsSpace).reverse

/-- Model of `content.split("\n")[0]`: the characters before the first
newline. -/
def firstLineChars (s : String) : List Char :=
  s.data.takeWhile (fun c => c ≠ '\n')

/-- Embedding of `extractNoteTitle` (src/convex/canvas.ts): first line,
HTML tags removed, leading heading marker stripped, trimmed, with
`"Untitled"` as the fallback for an empty result (the `|| "Untitled"` on
the empty string). -/
def extractNoteTitle (content : String) : String :=
  let cleanLine := stripHtmlTags (firstLineChars content)
  let t := trimChars (stripHeadingMark cleanLine)
  if t.isEmpty then "Untitled" else String.mk t

/-- Fuel-indexed scanner behind `rawCaptures`; every recursive call is on a
strictly shorter list, so fuel equal to the list length suffices. -/
def rawCapturesAux : Nat → List Char → List String
  | 0, _ => []
  | _ + 1, [] => []
  | fuel + 1, '[' :: '[' :: rest =>
    let run := rest.takeWhile (fun c => c ≠ ']')
    let rest2 := rest.dropWhile (fun c => c ≠ ']')
    if run.isEmpty then rawCapturesAux fuel ('[' :: rest)
    else
      match rest2 with
      | ']' :: ']' :: after => String.mk run :: rawCapturesAux fuel after
      | _ => rawCapturesAux fuel ('[' :: rest)
  | fuel + 1, _ :: rest => rawCapturesAux fuel rest

/-- Model of the global scan `/\[\[([^\]]+)\]\]/g`: at `[[`, the capture is
the maximal nonempty run of non-`]` characters, which must be followed by
`]]`; on a failed match the scan advances one character, on success it
resumes after the closing `]]`. -/
def rawCaptures (l : List Char) : List String :=
  rawCapturesAux l.length l

/-- Literal scanned for by the attribute regex `/data-title="([^"]+)"/g`. -/
def dataTitleLit : List Char := "data-title=\"".data

/-- Fuel-indexed scanner behind `htmlCaptures`. -/
def htmlCapturesAux : Nat → List Char → List String
  | 0, _ => []
  | _ + 1, [] => []
  | fuel + 1, c :: rest =>
    if dataTitleLit.isPrefixOf (c :: rest) then
      let body := (c :: rest).drop dataTitleLit.length
      let run := body.takeWhile (fun ch => ch ≠ '"')
      let rest2 := body.dropWhile (fun ch => ch ≠ '"')
      if run.isEmpty then htmlCapturesAux fuel rest
      else
        match rest2 with
        | '"' :: after => String.mk run :: htmlCapturesAux fuel after
        | _ => htmlCapturesAux fuel rest
    else htmlCapturesAux fuel rest

/-- Model of the global scan `/data-title="([^"]+)"/g`: after the literal
prefix, the capture is the maximal nonempty run of non-quote characters,
which must be followed by a closing quote; a failed match advances one
character, a successful one resumes after the closing quote. -/
def htmlCaptures (l : List Char) : List String :=
  htmlCapturesAux l.length l

/-- Model of `String.prototype.toLowerCase` on the ASCII inputs this engine
handles, character by character. -/
def jsToLower (s : String) : String :=
  String.mk (s.data.map Char.toLower)

/-- Model of `if (!links.includes(title)) links.push(title)`. -/
def pushUnique (acc : List String) (t : String) : List String :=
  if acc.contains t then acc else acc ++ [t]

/-- Embedding of `extractWikiLinksFromContent` (src/convex/canvas.ts): raw
`[[X]]` captures lower-cased and appended without de-duplication, then
`data-title` captures lower-cased and appended only when not already
present. -/
def extractWikiLinksFromContent (content : String) : List String :=
  let links := (rawCaptures content.data).map jsToLower
  (htmlCaptures content.data).foldl (fun acc t => pushUnique acc (jsToLower t)) links

/-- Embedding of `extractWikiLinks` (wiki-link module under src/src/lib):
same two scans but with no lower-casing anywhere. -/
def extractWikiLinks (content : String) : List String :=
  (htmlCaptures content.data).foldl pushUnique (rawCaptures content.data)

/-! ## Data model (src/convex/schema.ts) -/

/-- Node kinds (the `type` union of `canvasNodes`). -/
inductive NodeType
  | text
  | chat_reference
  | note
deriving DecidableEq, Repr

/-- Source tracking (the `sourceType` union of `canvasNodes`). -/
inductive SourceType
  | manual
  | voice
  | chat
  | ai_extracted
  | web
  | youtube
  | readwise
deriving DecidableEq, Repr

/-- Voice-note status state machine (the `status` union of `voiceNotes`). -/
inductive VNStatus
  | recording
  | uploaded
  | transcribing
  | processing
  | completed
  | error
deriving DecidableEq, Repr

/-- Record of the `canvasNodes` table. Positions and sizes are numbers in
the source; they are modelled as integers, and the optional embedding
vector's floating-point entries as integers, since no claim depends on
fractional values. -/
structure Node where
  id : Nat
  type : NodeType
  content : String
  x : Int
  y : Int
  width : Int
  height : Int
  messageId : Option Nat := none
  conversationId : Option Nat := none
  sourceType : SourceType := .manual
  sourceId : Option Nat := none
  sourceUrl : Option String := none
  parentNodeId : Option Nat := none
  outgoingLinks : Option (List String) := none
  embedding : Option (List Int) := none
  createdAt : Nat
  updatedAt : Nat
deriving DecidableEq, Repr

/-- Record of the `canvasEdges` table. -/
structure Edge where
  id : Nat
  source : Nat
  target : Nat
  label : Option String := none
  createdAt : Nat
deriving DecidableEq, Repr

/-- Record of the `voiceNotes` table. -/
structure VoiceNote where
  id : Nat
  userId : String
  fileId : Nat
  duration : Nat
  transcription : Option String := none
  status : VNStatus
  errorMessage : Option String := none
  createdAt : Nat
  updatedAt : Nat
deriving DecidableEq, Repr

/-- The backing document store: the three record sets, a fresh-id counter
for inserts, and the current clock value standing for `Date.now()`. -/
structure DB where
  nodes : List Node := []
  edges : List Edge := []
  voiceNotes : List VoiceNote := []
  nextId : Nat := 0
  now : Nat := 0
deriving DecidableEq, Repr

/-! ## Node/Edge Repository (src/convex/canvas.ts mutations and queries) -/

/-- Arguments of the `createNode` mutation; optional fields default to
absent exactly as in the validator. -/
structure CreateNodeArgs where
  type : NodeType
  content : String
  x : Int
  y : Int
  width : Option Int := none
  height : Option Int := none
  messageId : Option Nat := none
  conversationId : Option Nat := none
  sourceType : Option SourceType := none
  sourceId : Option Nat := none
  sourceUrl : Option String := none
  parentNodeId : Option Nat := none
  outgoingLinks : Option (List String) := none
deriving Repr

/-- Embedding of the `createNode` mutation: insert with defaults
`width ?? 300`, `height ?? 150`, `sourceType ?? "manual"`, both timestamps
set to now; returns the new id. -/
def createNode (st : DB) (args : CreateNodeArgs) : Nat × DB :=
  let node : Node :=
    { id := st.nextId
      type := args.type
      content := args.content
      x := args.x
      y := args.y
      width := args.width.getD 300
      height := args.height.getD 150
      messageId := args.messageId
      conversationId := args.conversationId
      sourceType := args.sourceType.getD .manual
      sourceId := args.sourceId
      sourceUrl := args.sourceUrl
      parentNodeId := args.parentNodeId
      outgoingLinks := args.outgoingLinks
      embedding := none
      createdAt := st.now
      updatedAt := st.now }
  (st.nextId, { st with nodes := st.nodes ++ [node], nextId := st.nextId + 1 })

/-- Arguments of the `updateNode` mutation (after the `undefined` filter,
an absent option is simply not patched). -/
structure UpdateNodeArgs where
  content : Option String := none
  x : Option Int := none
  y : Option Int := none
  width : Option Int := none
  height : Option Int := none
  outgoingLinks : Option (List String) := none
deriving Repr

/-- Merge of the provided fields into a node record, always bumping
`updatedAt`, exactly as `ctx.db.patch` applies the filtered updates. -/
def applyNodePatch (n : Node) (args : UpdateNodeArgs) (now : Nat) : Node :=
  { n with
    content := args.content.getD n.content
    x := args.x.getD n.x
    y := args.y.getD n.y
    width := args.width.getD n.width
    height := args.height.getD n.height
    outgoingLinks :=
      match args.outgoingLinks with
      | some l => some l
      | none => n.outgoingLinks
    updatedAt := now }

/-- Embedding of the `updateNode` mutation; `ctx.db.patch` throws when the
document is absent. -/
def updateNode (st : DB) (id : Nat) (args : UpdateNodeArgs) : Except String DB :=
  if st.nodes.any (fun n => n.id == id) then
    .ok { st with
      nodes := st.nodes.map (fun n =>
        if n.id == id then applyNodePatch n args st.now else n) }
  else .error "patch on nonexistent document"

/-- Embedding of the `updateNodeEmbedding` mutation: patches only the
`embedding` field (notably it does not bump `updatedAt`). -/
def updateNodeEmbedding (st : DB) (id : Nat) (vec : List Int) : Except String DB :=
  if st.nodes.any (fun n => n.id == id) then
    .ok { st with
      nodes := st.nodes.map (fun n =>
        if n.id == id then { n with embedding := some vec } else n) }
  else .error "patch on nonexistent document"

/-- Model of `ctx.db.delete` on an edge id: removes the record, throwing
when it is absent. -/
def deleteEdgeRecord (st : DB) (eid : Nat) : Except String DB :=
  if st.edges.any (fun e => e.id == eid) then
    .ok { st with edges := st.edges.filter (fun e => e.id != eid) }
  else .error "delete on nonexistent document"

/-- Model of `ctx.db.delete` on a node id. -/
def deleteNodeRecord (st : DB) (id : Nat) : Except String DB :=
  if st.nodes.any (fun n => n.id == id) then
    .ok { st with nodes := st.nodes.filter (fun n => n.id != id) }
  else .error "delete on nonexistent document"

/-- The edge ids enumerated by the cascade of `deleteNode`: the by-source
index result followed by the by-target index result,
`[...sourceEdges, ...targetEdges]`. -/
def cascadeEdgeIds (st : DB) (id : Nat) : List Nat :=
  ((st.edges.filter (fun e => e.source == id)) ++
    (st.edges.filter (fun e => e.target == id))).map (fun e => e.id)

/-- The sequential `for (const edge of ...) await ctx.db.delete(edge._id)`
loop of `deleteNode`. -/
def deleteEdgesLoop : DB → List Nat → Except String DB
  | st, [] => .ok st
  | st, eid :: rest =>
    match deleteEdgeRecord st eid with
    | .error e => .error e
    | .ok st1 => deleteEdgesLoop st1 rest

/-- Embedding of the `deleteNode` mutation: collect the incident edges from
both indexes, delete them one by one, then delete the node itself. -/
def deleteNode (st : DB) (id : Nat) : Except String DB :=
  match deleteEdgesLoop st (cascadeEdgeIds st id) with
  | .error e => .error e
  | .ok st1 => deleteNodeRecord st1 id

/-- Embedding of the `createEdge` mutation: inserts unconditionally — there
is no uniqueness check and no source-differs-from-target check. -/
def createEdge (st : DB) (source target : Nat) (label : Option String) :
    Nat × DB :=
  let e : Edge :=
    { id := st.nextId, source := source, target := target, label := label
      createdAt := st.now }
  (st.nextId, { st with edges := st.edges ++ [e], nextId := st.nextId + 1 })

/-- Embedding of the `deleteEdge` mutation. -/
def deleteEdge (st : DB) (eid : Nat) : Except String DB :=
  deleteEdgeRecord st eid

/-- Lookup of a node document by id (`ctx.db.get`). -/
def nodeById (st : DB) (id : Nat) : Option Node :=
  st.nodes.find? (fun n => n.id == id)

/-- Embedding of the `getWikiLinkBacklinks` query: empty title short
circuits to `[]`; otherwise a note qualifies when the lower-cased title is
among its `outgoingLinks` (lower-cased) or among the links re-extracted
from its raw content; results are returned together with their own
extracted display title. -/
def getWikiLinkBacklinks (st : DB) (noteTitle : String) :
    List (Node × String) :=
  if noteTitle = "" then []
  else
    let notes := st.nodes.filter (fun n => n.type == .note)
    let targetTitle := jsToLower noteTitle
    let backlinks := notes.filter (fun note =>
      (match note.outgoingLinks with
        | some links => links.any (fun link => jsToLower link == targetTitle)
        | none => false)
      || (extractWikiLinksFromContent note.content).contains targetTitle)
    backlinks.map (fun note => (note, extractNoteTitle note.content))

/-- Embedding of the editor save path `handleUpdate` (NoteEditor): on every
content write it recomputes the outgoing links with `extractWikiLinks` and
passes both to `updateNode`. -/
def handleUpdate (st : DB) (noteId : Nat) (content : String) :
    Except String DB :=
  updateNode st noteId
    { content := some content, outgoingLinks := some (extractWikiLinks content) }

/-! ## Ingestion pipeline (the voice-note `process` action) -/

/-- Concept as returned by the extraction collaborator (`title`, `content`,
optional `suggestedLinks`, optional `tags`). -/
structure Concept where
  title : String
  content : String
  suggestedLinks : Option (List String) := none
  tags : Option (List String) := none
deriving Repr

/-- One non-null result of the nearest-neighbor search. `scorePct` stands
for the already-rounded percentage `Math.round(score * 100)`; the
floating-point score itself is abstracted since no claim depends on it. -/
structure RelatedHit where
  nodeId : Nat
  scorePct : Int
deriving DecidableEq, Repr

/-- Embedding of the `voiceNotes.get` query: the record, provided it exists
and belongs to the authenticated user. -/
def getVoiceNote (st : DB) (user : String) (id : Nat) : Option VoiceNote :=
  (st.voiceNotes.find? (fun vn => vn.id == id)).bind (fun vn =>
    if vn.userId == user then some vn else none)

/-- Patch applied by `voiceNotes.updateStatus`: always set `status` and bump
`updatedAt`; set `transcription` and `errorMessage` only when provided. -/
def patchVN (status : VNStatus) (transcription errorMessage : Option String)
    (now : Nat) (vn : VoiceNote) : VoiceNote :=
  { vn with
    status := status
    transcription :=
      match transcription with
      | some t => some t
      | none => vn.transcription
    errorMessage :=
      match errorMessage with
      | some m => some m
      | none => vn.errorMessage
    updatedAt := now }

/-- Embedding of the `voiceNotes.updateStatus` mutation; throws when the
record is absent or owned by another user. -/
def updateStatus (st : DB) (user : String) (id : Nat) (status : VNStatus)
    (transcription errorMessage : Option String) : Except String DB :=
  match getVoiceNote st user id with
  | none => .error "Not found"
  | some _ =>
    .ok { st with
      voiceNotes := st.voiceNotes.map (fun vn =>
        if vn.id == id then patchVN status transcription errorMessage st.now vn
        else vn) }

/-- Content composed for one extracted concept: heading + body + (when the
joined wiki-link line is non-empty, which covers both an absent and an
empty `suggestedLinks`) a trailing line of delimited references. -/
def conceptContent (c : Concept) : String :=
  let wikiLinks :=
    match c.suggestedLinks with
    | some ls => String.intercalate " " (ls.map (fun l => "[[" ++ l ++ "]]"))
    | none => ""
  "# " ++ c.title ++ "\n\n" ++ c.content ++
    (if wikiLinks = "" then "" else "\n\n" ++ wikiLinks)

/-- The per-concept edge-creation loop over the nearest-neighbor results:
an edge is created only when the hit is not the new node itself and not
among the ids created earlier in this run (`createdNodeIds`), with the
match score as a percentage label. -/
def linkRelated (nodeId : Nat) (createdNodeIds : List Nat) :
    DB → List RelatedHit → DB
  | st, [] => st
  | st, hit :: rest =>
    if hit.nodeId != nodeId && !(createdNodeIds.contains hit.nodeId) then
      linkRelated nodeId createdNodeIds
        (createEdge st nodeId hit.nodeId
          (some (toString hit.scorePct ++ "%"))).2 rest
    else linkRelated nodeId createdNodeIds st rest

/-- The `for (const concept of concepts)` loop of the `process` action.
`embed` models the embedding collaborator (modelled from the spec:
`EmbeddingProvider.embed(text) -> fixed-length vector`, failing with an
embedding error; the `embeddings.embedCanvasNode` action persisting it is
not under src), and `related` models the `embeddings.findRelated` action
(modelled from the spec: `NearestNeighborIndex.query` returning ranked
`{nodeId, score}` hits over the current graph). Each concept: compose
content, create the note node, record its id, persist the embedding, query
neighbors against the current state, link; abort on the first failure. -/
def conceptsLoop (vnId : Nat)
    (embed : String → Except String (List Int))
    (related : DB → String → Except String (List RelatedHit))
    (baseX baseY : Int) :
    DB → List Nat → Int → List Concept → DB × List Nat × Except String Unit
  | st, createdIds, _, [] => (st, createdIds, .ok ())
  | st, createdIds, xOffset, c :: rest =>
    let content := conceptContent c
    let r := createNode st
      { type := .note, content := content, x := baseX + xOffset, y := baseY
        sourceType := some .voice, sourceId := some vnId }
    let nodeId := r.1
    let st1 := r.2
    let createdIds1 := createdIds ++ [nodeId]
    match embed c.content with
    | .error e => (st1, createdIds1, .error e)
    | .ok vec =>
      match updateNodeEmbedding st1 nodeId vec with
      | .error e => (st1, createdIds1, .error e)
      | .ok st2 =>
        match related st2 c.content with
        | .error e => (st2, createdIds1, .error e)
        | .ok hits =>
          let st3 := linkRelated nodeId createdIds1 st2 hits
          conceptsLoop vnId embed related baseX baseY
            st3 createdIds1 (xOffset + 350) rest

/-- Final step of the `try` block: mark the voice note `completed` and
return the concept count. -/
def processComplete (user : String) (vnId : Nat) (st3 : DB) (count : Nat) :
    DB × Except String Nat :=
  match updateStatus st3 user vnId .completed none none with
  | .error e => (st3, .error e)
  | .ok st4 => (st4, .ok count)

/-- Outcome handling after the concept loop: a per-concept failure aborts
the whole pipeline with that error (concepts already processed stay in the
graph); on success the note is marked completed. -/
def processAfterLoop (user : String) (vnId : Nat)
    (r : DB × List Nat × Except String Unit) (count : Nat) :
    DB × Except String Nat :=
  match r.2.2 with
  | .error e => (r.1, .error e)
  | .ok _ => processComplete user vnId r.1 count

/-- Handling of the concept-extraction outcome: a failed extraction throws
(transcript retained, no nodes created); a successful one runs the concept
loop over the current store. -/
def processAfterExtract (user : String) (vnId : Nat)
    (embed : String → Except String (List Int))
    (related : DB → String → Except String (List RelatedHit))
    (baseX baseY : Int) (st2 : DB)
    (res : Except String (List Concept)) : DB × Except String Nat :=
  match res with
  | .error e => (st2, .error ("Concept extraction failed: " ++ e))
  | .ok concepts =>
    processAfterLoop user vnId
      (conceptsLoop vnId embed related baseX baseY st2 [] 0 concepts)
      concepts.length

/-- Body of the `try` block of `process`: audio lookup, transcription,
status update with the transcript, then concept extraction over the
existing node contents and the concept loop. The collaborator outcomes
(audio URL, Whisper call, extraction route) are parameters; a thrown error
is returned as the `Except` error together with the state reached so far,
since mutations already run are persisted. -/
def processTry (user : String) (vnId : Nat) (audioUrl : Option String)
    (transcribe : Except String String)
    (extractConcepts : String → List String → Except String (List Concept))
    (embed : String → Except String (List Int))
    (related : DB → String → Except String (List RelatedHit))
    (baseX baseY : Int) (st1 : DB) : DB × Except String Nat :=
  match audioUrl with
  | none => (st1, .error "Audio file not found")
  | some _ =>
    match transcribe with
    | .error errText => (st1, .error ("Transcription failed: " ++ errText))
    | .ok transcription =>
      match updateStatus st1 user vnId .processing (some transcription) none with
      | .error e => (st1, .error e)
      | .ok st2 =>
        processAfterExtract user vnId embed related baseX baseY st2
          (extractConcepts transcription (st2.nodes.map (fun n => n.content)))

/-- The `catch` block of `process`: a successful try body passes through;
a thrown error makes the catch persist `status = "error"` with the error's
message on the voice note reached so far, then re-raise. -/
def processCatch (user : String) (vnId : Nat) :
    DB × Except String Nat → DB × Except String Nat
  | (stt, .ok n) => (stt, .ok n)
  | (stt, .error e) =>
    match updateStatus stt user vnId .error none (some e) with
    | .ok st3 => (st3, .error e)
    | .error e2 => (stt, .error e2)

/-- Embedding of the voice-note `process` action: ownership check, status
set to `transcribing`, then the try body wrapped in the catch. The final
state is returned alongside the outcome because the store mutations
persist even when the action throws. -/
def process (st : DB) (user : String) (vnId : Nat) (audioUrl : Option String)
    (transcribe : Except String String)
    (extractConcepts : String → List String → Except String (List Concept))
    (embed : String → Except String (List Int))
    (related : DB → String → Except String (List RelatedHit))
    (baseX baseY : Int) : DB × Except String Nat :=
  match getVoiceNote st user vnId with
  | none => (st, .error "Voice note not found")
  | some _ =>
    match updateStatus st user vnId .transcribing none none with
    | .error e => (st, .error e)
    | .ok st1 =>
      processCatch user vnId (processTry user vnId audioUrl transcribe
        extractConcepts embed related baseX baseY st1)

/-- First-seen-order de-duplication of a list against an accumulator of
already-seen titles: the elements that `pushUnique` would newly append. -/
def newOnes (seen : List String) : List String → List String
  | [] => []
  | t :: rest =>
    if seen.contains t then newOnes seen rest
    else t :: newOnes (seen ++ [t]) rest

/-- Ids of the nodes present in `st'` but not (by id) in `st`: the nodes
created between the two states. -/
def newNodeIds (st st' : DB) : List Nat :=
  (st'.nodes.filter (fun n => !(st.nodes.any (fun m => m.id == n.id)))).map
    (fun n => n.id)

/-! ## Lemmas about the content parser -/

theorem stripHtmlTagsAux_of_no_lt (fuel : Nat) :
    ∀ l : List Char, (∀ ch ∈ l, ch ≠ '<') → stripHtmlTagsAux fuel l = l.take fuel := by
  induction fuel with
  | zero => intro l _; simp [stripHtmlTagsAux]
  | succ fuel ih =>
    intro l h
    cases l with
    | nil => simp [stripHtmlTagsAux]
    | cons c rest =>
      have hc : ¬ c = '<' := h c (by simp)
      simp [stripHtmlTagsAux, hc, ih rest (fun ch hm => h ch (by simp [hm]))]

theorem stripHtmlTags_of_no_lt (l : List Char) (h : ∀ ch ∈ l, ch ≠ '<') :
    stripHtmlTags l = l := by
  rw [stripHtmlTags, stripHtmlTagsAux_of_no_lt l.length l h, List.take_length]

theorem trimChars_of_all_space (l : List Char) (h : ∀ ch ∈ l, isJsSpace ch) :
    trimChars l = [] := by
  have h1 : l.dropWhile isJsSpace = [] := List.dropWhile_eq_nil_iff.mpr h
  simp [trimChars, h1]

/-- Claim C9: `extractNoteTitle` is total and never returns the empty
string; it returns `"Untitled"` for the empty string and for any
whitespace-only content. -/
theorem extractNoteTitle_total_nonempty :
    (∀ c : String, extractNoteTitle c ≠ "") ∧
    extractNoteTitle "" = "Untitled" ∧
    (∀ c : String, (∀ ch ∈ c.data, isJsSpace ch) → extractNoteTitle c = "Untitled") := by
  refine ⟨?_, by decide, ?_⟩
  · intro c
    unfold extractNoteTitle
    set t := trimChars (stripHeadingMark (stripHtmlTags (firstLineChars c))) with ht
    by_cases h : t.isEmpty
    · simp [h]
    · simp only [h, if_false, Bool.false_eq_true]
      intro heq
      have hd := congrArg String.data heq
      simp only [String.data] at hd
      rw [List.isEmpty_iff] at h
      exact h hd
  · intro c h
    have hfl : ∀ ch ∈ firstLineChars c, isJsSpace ch := by
      intro ch hm
      exact h ch ((List.takeWhile_sublist _).subset hm)
    have hlt : ∀ ch ∈ firstLineChars c, ch ≠ '<' := by
      intro ch hm he
      have := hfl ch hm
      rw [he] at this
      simp [isJsSpace] at this
    rw [extractNoteTitle, stripHtmlTags_of_no_lt _ hlt]
    cases hc : firstLineChars c with
    | nil => simp [stripHeadingMark, trimChars]
    | cons c0 rest =>
      have hc0 : isJsSpace c0 := hfl c0 (by simp [hc])
      have hne : ¬ c0 = '#' := by
        intro he
        rw [he] at hc0
        simp [isJsSpace] at hc0
      have hrest : ∀ ch ∈ (c0 :: rest : List Char), isJsSpace ch := by
        intro ch hm
        exact hfl ch (hc ▸ hm)
      simp [stripHeadingMark, hne, trimChars_of_all_space _ hrest]

/-- Witness for C9: concrete whitespace-only and non-whitespace inputs. -/
theorem extractNoteTitle_total_nonempty_witness :
    extractNoteTitle " \t" = "Untitled" ∧ extractNoteTitle "x" ≠ "" :=
  ⟨extractNoteTitle_total_nonempty.2.2 " \t" (by decide),
    extractNoteTitle_total_nonempty.1 "x"⟩

/-! ## Claim C2: createEdge and self-loops -/

/-- Claim C2 counterexample: `createEdge` performs no self-loop validation —
called with `source == target` on a concrete store it simply inserts the
self-loop edge instead of failing. -/
theorem createEdge_selfloop_inserted :
    ((createEdge
        { nodes := [{ id := 0, type := .note, content := "", x := 0, y := 0,
                      width := 300, height := 150, createdAt := 0, updatedAt := 0 }],
          edges := [], voiceNotes := [], nextId := 1, now := 0 }
        0 0 none).2.edges.any (fun e => e.source == 0 && e.target == 0)) = true := by
  decide

/-- Claim C2 amended: `createEdge` inserts unconditionally — no uniqueness
enforcement and no self-loop rejection: creating the same pair twice adds
two matching edges, for every pair including `source = target`. -/
theorem createEdge_inserts_unconditionally (st : DB) (s t : Nat) (l : Option String) :
    (((createEdge (createEdge st s t l).2 s t l).2.edges.filter
        (fun e => e.source == s && e.target == t)).length =
      (st.edges.filter (fun e => e.source == s && e.target == t)).length + 2) := by
  simp [createEdge, List.filter_append]

/-! ## Claim C3: wiki-link extraction and de-duplication -/

/-- Claim C3 counterexample: a title occurring twice in delimited form is
returned twice — the raw captures are not de-duplicated. -/
theorem extractWikiLinksFromContent_keeps_raw_duplicates :
    extractWikiLinksFromContent "[[A]] [[A]]" = ["a", "a"] ∧
    ¬ (extractWikiLinksFromContent "[[A]] [[A]]").Nodup := by
  exact ⟨by decide, by decide⟩

theorem foldl_pushUnique_eq (l : List String) :
    ∀ seen, l.foldl pushUnique seen = seen ++ newOnes seen l := by
  induction l with
  | nil => intro seen; simp [newOnes]
  | cons t rest ih =>
    intro seen
    by_cases h : t ∈ seen
    · simp [newOnes, h, List.foldl_cons, pushUnique, ih]
    · simp [newOnes, h, List.foldl_cons, pushUnique, ih (seen ++ [t])]

theorem mem_append_newOnes (l : List String) :
    ∀ seen x, x ∈ seen ++ newOnes seen l ↔ (x ∈ seen ∨ x ∈ l) := by
  induction l with
  | nil => intro seen x; simp [newOnes]
  | cons t rest ih =>
    intro seen x
    by_cases ht : t ∈ seen
    · rw [show newOnes seen (t :: rest) = newOnes seen rest by simp [newOnes, ht]]
      rw [ih seen x]
      constructor
      · rintro (hx | hx)
        · exact Or.inl hx
        · exact Or.inr (List.mem_cons_of_mem _ hx)
      · rintro (hx | hx)
        · exact Or.inl hx
        · rcases List.mem_cons.mp hx with he | hx
          · exact Or.inl (he ▸ ht)
          · exact Or.inr hx
    · rw [show newOnes seen (t :: rest) = t :: newOnes (seen ++ [t]) rest by
        simp [newOnes, ht]]
      rw [show seen ++ t :: newOnes (seen ++ [t]) rest =
        (seen ++ [t]) ++ newOnes (seen ++ [t]) rest by simp]
      rw [ih (seen ++ [t]) x]
      simp only [List.mem_append, List.mem_cons, List.mem_singleton]
      tauto

theorem mem_newOnes_not_seen (l : List String) :
    ∀ seen x, x ∈ newOnes seen l → x ∉ seen := by
  induction l with
  | nil => intro seen x hx; simp [newOnes] at hx
  | cons t rest ih =>
    intro seen x hx
    by_cases h : t ∈ seen
    · rw [show newOnes seen (t :: rest) = newOnes seen rest by simp [newOnes, h]] at hx
      exact ih seen x hx
    · rw [show newOnes seen (t :: rest) = t :: newOnes (seen ++ [t]) rest by
        simp [newOnes, h]] at hx
      rcases List.mem_cons.mp hx with he | hx
      · subst he
        intro hmem
        exact h hmem
      · intro hmem
        exact ih (seen ++ [t]) x hx (List.mem_append_left _ hmem)

theorem newOnes_nodup (l : List String) : ∀ seen, (newOnes seen l).Nodup := by
  induction l with
  | nil => intro seen; simp [newOnes]
  | cons t rest ih =>
    intro seen
    by_cases h : t ∈ seen
    · simpa [newOnes, h] using ih seen
    · rw [show newOnes seen (t :: rest) = t :: newOnes (seen ++ [t]) rest by
        simp [newOnes, h]]
      refine List.nodup_cons.mpr ⟨?_, ih (seen ++ [t])⟩
      intro hmem
      exact mem_newOnes_not_seen rest (seen ++ [t]) t hmem (by simp)

/-- Claim C3 amended: the result is the union of the lower-cased captures
of both forms; the raw delimited captures are kept in order without
de-duplication, and only the attribute-form captures are de-duplicated —
against everything already captured and among themselves, preserving
first-seen order. -/
theorem extractWikiLinksFromContent_union_shape (content : String) :
    extractWikiLinksFromContent content =
      (rawCaptures content.data).map jsToLower ++
        newOnes ((rawCaptures content.data).map jsToLower)
          ((htmlCaptures content.data).map jsToLower) ∧
    (∀ x, x ∈ extractWikiLinksFromContent content ↔
      (x ∈ (rawCaptures content.data).map jsToLower ∨
        x ∈ (htmlCaptures content.data).map jsToLower)) ∧
    (newOnes ((rawCaptures content.data).map jsToLower)
        ((htmlCaptures content.data).map jsToLower)).Nodup ∧
    (∀ x ∈ newOnes ((rawCaptures content.data).map jsToLower)
        ((htmlCaptures content.data).map jsToLower),
      x ∉ (rawCaptures content.data).map jsToLower) := by
  have key : extractWikiLinksFromContent content =
      (rawCaptures content.data).map jsToLower ++
        newOnes ((rawCaptures content.data).map jsToLower)
          ((htmlCaptures content.data).map jsToLower) := by
    show (htmlCaptures content.data).foldl (fun acc t => pushUnique acc (jsToLower t))
        ((rawCaptures content.data).map jsToLower) = _
    rw [← List.foldl_map jsToLower pushUnique]
    rw [foldl_pushUnique_eq]
  refine ⟨key, ?_, newOnes_nodup _ _, fun x hx => mem_newOnes_not_seen _ _ x hx⟩
  intro x
  rw [key]
  rw [mem_append_newOnes]

/-- Witness for C3: a content with one attribute capture not among the raw
captures. -/
theorem extractWikiLinksFromContent_union_shape_witness :
    extractWikiLinksFromContent "data-title=\"B\" [[A]]" =
      (rawCaptures "data-title=\"B\" [[A]]".data).map jsToLower ++
        newOnes ((rawCaptures "data-title=\"B\" [[A]]".data).map jsToLower)
          ((htmlCaptures "data-title=\"B\" [[A]]".data).map jsToLower) ∧
    "b" ∉ (rawCaptures "data-title=\"B\" [[A]]".data).map jsToLower :=
  ⟨(extractWikiLinksFromContent_union_shape "data-title=\"B\" [[A]]").1,
    (extractWikiLinksFromContent_union_shape "data-title=\"B\" [[A]]").2.2.2 "b"
      (by decide)⟩

/-! ## Claim C4: who recomputes outgoingLinks -/

/-- Claim C4 counterexample: the repository's `updateNode`, called with a
new `content` and no `outgoingLinks` field, leaves the stored
`outgoingLinks` unchanged — it does not recompute them from the new
content via the parser, under either extraction function. -/
theorem updateNode_no_recompute :
    ((updateNode
        { nodes := [{ id := 0, type := .note, content := "x", x := 0, y := 0,
                      width := 300, height := 150, outgoingLinks := some ["old"],
                      createdAt := 0, updatedAt := 0 }],
          edges := [], voiceNotes := [], nextId := 1, now := 3 }
        0 { content := some "[[New]]" }).toOption.map
      (fun s => (nodeById s 0).map (fun n => (n.content, n.outgoingLinks)))) =
      some (some ("[[New]]", some ["old"])) ∧
    extractWikiLinks "[[New]]" ≠ ["old"] ∧
    extractWikiLinksFromContent "[[New]]" ≠ ["old"] := by
  refine ⟨by decide, by decide, by decide⟩

theorem applyNodePatch_id (n : Node) (args : UpdateNodeArgs) (now : Nat) :
    (applyNodePatch n args now).id = n.id := rfl

theorem find_map_patch (id : Nat) (g : Node → Node) (hg : ∀ n, (g n).id = n.id) :
    ∀ l : List Node,
      (l.map g).find? (fun n => n.id == id) =
        ((l.find? (fun n => n.id == id)).map g) := by
  intro l
  induction l with
  | nil => simp
  | cons n rest ih =>
    cases hni : (n.id == id) with
    | true => simp [List.find?_cons, hg, hni]
    | false => simp [List.find?_cons, hg, hni, ih]

theorem updateNode_ok_shape (st : DB) (id : Nat) (args : UpdateNodeArgs)
    (st' : DB) (h : updateNode st id args = .ok st') :
    st'.nodes = st.nodes.map (fun n =>
      if n.id == id then applyNodePatch n args st.now else n) ∧
    st.nodes.any (fun n => n.id == id) = true := by
  unfold updateNode at h
  split at h
  · cases h
    exact ⟨rfl, by assumption⟩
  · cases h

/-- Claim C4 amended: the repository's `updateNode` merges only the fields
it is given; it is the editor's save path (`handleUpdate`) that recomputes
the outgoing links from the new content with `extractWikiLinks` and writes
them together with the content, so after a save through the editor the
node's `outgoingLinks` equal the extraction of the newly written content. -/
theorem handleUpdate_recomputes_outgoingLinks (st : DB) (id : Nat)
    (content : String) (st' : DB) (h : handleUpdate st id content = .ok st') :
    (nodeById st' id).map (fun n => (n.content, n.outgoingLinks)) =
      some (content, some (extractWikiLinks content)) := by
  obtain ⟨hnodes, hany⟩ := updateNode_ok_shape st id _ st' h
  obtain ⟨n0, hmem, hn0⟩ := List.any_eq_true.mp hany
  rw [nodeById, hnodes]
  rw [find_map_patch id _ (fun n => by
    by_cases hn : n.id == id <;> simp [hn, applyNodePatch_id])]
  obtain ⟨n1, hfind⟩ : ∃ n1, st.nodes.find? (fun n => n.id == id) = some n1 := by
    cases hf : st.nodes.find? (fun n => n.id == id) with
    | some n1 => exact ⟨n1, rfl⟩
    | none =>
      exfalso
      have := List.find?_eq_none.mp hf n0 hmem
      exact this hn0
  have hp := List.find?_some hfind
  have hpe : n1.id = id := by simpa using hp
  rw [hfind]
  simp [hpe, applyNodePatch]

/-- Witness for C4: a concrete editor save through `handleUpdate`. -/
theorem handleUpdate_recomputes_outgoingLinks_witness :
    (nodeById
        { nodes := [{ id := 0, type := .note, content := "[[A]]", x := 0, y := 0,
                      width := 300, height := 150,
                      outgoingLinks := some (extractWikiLinks "[[A]]"),
                      createdAt := 0, updatedAt := 7 }],
          edges := [], voiceNotes := [], nextId := 1, now := 7 } 0).map
      (fun n => (n.content, n.outgoingLinks)) =
      some ("[[A]]", some (extractWikiLinks "[[A]]")) :=
  handleUpdate_recomputes_outgoingLinks
    { nodes := [{ id := 0, type := .note, content := "", x := 0, y := 0,
                  width := 300, height := 150, createdAt := 0, updatedAt := 0 }],
      edges := [], voiceNotes := [], nextId := 1, now := 7 } 0 "[[A]]" _ rfl

/-! ## Lemmas about the cascade delete -/

theorem deleteEdgesLoop_ok_edges :
    ∀ (L : List Nat) (st st' : DB), deleteEdgesLoop st L = .ok st' →
      st' = { st with edges := st.edges.filter (fun e => !(L.contains e.id)) } := by
  intro L
  induction L with
  | nil =>
    intro st st' h
    cases h
    have : st.edges.filter (fun e => !(([] : List Nat).contains e.id)) = st.edges := by
      simp
    rw [this]
  | cons i rest ih =>
    intro st st' h
    rw [deleteEdgesLoop] at h
    cases hd : deleteEdgeRecord st i with
    | error e => rw [hd] at h; cases h
    | ok st1 =>
      rw [hd] at h
      have hst1 : st1 = { st with edges := st.edges.filter (fun e => e.id != i) } := by
        unfold deleteEdgeRecord at hd
        split at hd
        · cases hd; rfl
        · cases hd
      have := ih st1 st' h
      rw [this, hst1]
      simp only [List.filter_filter]
      congr 1
      apply List.filter_congr
      intro e _
      by_cases h1 : e.id = i <;> by_cases h2 : e.id ∈ rest <;> simp [h1, h2]

theorem deleteEdgesLoop_ok_ids_present :
    ∀ (L : List Nat) (st st' : DB), deleteEdgesLoop st L = .ok st' →
      ∀ i ∈ L, st.edges.any (fun e => e.id == i) = true := by
  intro L
  induction L with
  | nil => intro st st' _ i hi; cases hi
  | cons j rest ih =>
    intro st st' h i hi
    rw [deleteEdgesLoop] at h
    cases hd : deleteEdgeRecord st j with
    | error e => rw [hd] at h; cases h
    | ok st1 =>
      rw [hd] at h
      rcases List.mem_cons.mp hi with he | hrest
      · subst he
        unfold deleteEdgeRecord at hd
        split at hd
        · assumption
        · cases hd
      · have hin1 := ih st1 st' h i hrest
        have hst1 : st1 = { st with edges := st.edges.filter (fun e => e.id != j) } := by
          unfold deleteEdgeRecord at hd
          split at hd
          · cases hd; rfl
          · cases hd
        rw [hst1] at hin1
        obtain ⟨e, hmem, hei⟩ := List.any_eq_true.mp hin1
        exact List.any_eq_true.mpr ⟨e, (List.mem_filter.mp hmem).1, hei⟩

theorem deleteEdgesLoop_ok_nodup :
    ∀ (L : List Nat) (st st' : DB), deleteEdgesLoop st L = .ok st' → L.Nodup := by
  intro L
  induction L with
  | nil => intro st st' _; exact List.nodup_nil
  | cons j rest ih =>
    intro st st' h
    rw [deleteEdgesLoop] at h
    cases hd : deleteEdgeRecord st j with
    | error e => rw [hd] at h; cases h
    | ok st1 =>
      rw [hd] at h
      refine List.nodup_cons.mpr ⟨?_, ih st1 st' h⟩
      intro hj
      have hst1 : st1 = { st with edges := st.edges.filter (fun e => e.id != j) } := by
        unfold deleteEdgeRecord at hd
        split at hd
        · cases hd; rfl
        · cases hd
      have hany := deleteEdgesLoop_ok_ids_present rest st1 st' h j hj
      rw [hst1] at hany
      obtain ⟨e, hmem, hej⟩ := List.any_eq_true.mp hany
      have := (List.mem_filter.mp hmem).2
      rw [show e.id = j from by simpa using hej] at this
      simp at this

/-- Claim C1: when `deleteNode(N)` completes successfully, no edge with
`source == N` or `target == N` remains in the store — the cascade removed
every incident edge together with the node. -/
theorem deleteNode_clears_incident_edges (st st' : DB) (n : Nat)
    (h : deleteNode st n = .ok st') :
    st'.edges.all (fun e => !(e.source == n) && !(e.target == n)) = true := by
  rw [deleteNode] at h
  cases hd : deleteEdgesLoop st (cascadeEdgeIds st n) with
  | error e => rw [hd] at h; cases h
  | ok st1 =>
    rw [hd] at h
    have h2 : deleteNodeRecord st1 n = .ok st' := h
    have hs1 := deleteEdgesLoop_ok_edges _ _ _ hd
    have hedges : st'.edges = st1.edges := by
      unfold deleteNodeRecord at h2
      split at h2
      · cases h2; rfl
      · cases h2
    rw [List.all_eq_true]
    intro e he
    rw [hedges, hs1] at he
    obtain ⟨hemem, hecond⟩ := List.mem_filter.mp he
    have hnotin : e.id ∉ cascadeEdgeIds st n := by
      intro hin
      rw [show (cascadeEdgeIds st n).contains e.id = true from
        List.elem_iff.mpr hin] at hecond
      simp at hecond
    have hsrc : (e.source == n) = false := by
      cases hb : (e.source == n) with
      | false => rfl
      | true =>
        exfalso
        apply hnotin
        unfold cascadeEdgeIds
        exact List.mem_map.mpr ⟨e,
          List.mem_append_left _ (List.mem_filter.mpr ⟨hemem, hb⟩), rfl⟩
    have htgt : (e.target == n) = false := by
      cases hb : (e.target == n) with
      | false => rfl
      | true =>
        exfalso
        apply hnotin
        unfold cascadeEdgeIds
        exact List.mem_map.mpr ⟨e,
          List.mem_append_right _ (List.mem_filter.mpr ⟨hemem, hb⟩), rfl⟩
    rw [hsrc, htgt]
    rfl

/-- Witness for C1: a concrete store with two incident edges; after the
cascade both are gone. -/
theorem deleteNode_clears_incident_edges_witness :
    (({ nodes := [{ id := 1, type := .note, content := "", x := 0, y := 0,
                    width := 300, height := 150, createdAt := 0, updatedAt := 0 }],
        edges := [], voiceNotes := [], nextId := 4, now := 0 } : DB).edges.all
      (fun e => !(e.source == 0) && !(e.target == 0))) = true :=
  deleteNode_clears_incident_edges
    { nodes := [{ id := 0, type := .note, content := "", x := 0, y := 0,
                  width := 300, height := 150, createdAt := 0, updatedAt := 0 },
                { id := 1, type := .note, content := "", x := 0, y := 0,
                  width := 300, height := 150, createdAt := 0, updatedAt := 0 }],
      edges := [{ id := 2, source := 0, target := 1, createdAt := 0 },
                { id := 3, source := 1, target := 0, createdAt := 0 }],
      voiceNotes := [], nextId := 4, now := 0 }
    { nodes := [{ id := 1, type := .note, content := "", x := 0, y := 0,
                  width := 300, height := 150, createdAt := 0, updatedAt := 0 }],
      edges := [], voiceNotes := [], nextId := 4, now := 0 }
    0 (by rfl)

/-! ## Claim C10: self-loop edges and the cascade -/

/-- Claim C10: a self-loop edge on `N` is enumerated by the cascade of
`deleteNode(N)` in both the by-source and the by-target list, so its id is
deleted a second time after it is already gone — making the whole
`deleteNode` call fail. -/
theorem deleteNode_selfloop_double_delete (st : DB) (n : Nat) (e : Edge)
    (he : e ∈ st.edges) (hs : e.source = n) (ht : e.target = n) :
    2 ≤ (cascadeEdgeIds st n).count e.id ∧ (deleteNode st n).isOk = false := by
  have hcnt : 2 ≤ (cascadeEdgeIds st n).count e.id := by
    unfold cascadeEdgeIds
    rw [List.map_append, List.count_append]
    have h1 : 0 <
        ((st.edges.filter (fun e' => e'.source == n)).map (fun e' => e'.id)).count
          e.id := by
      rw [List.count_pos_iff]
      exact List.mem_map.mpr ⟨e, List.mem_filter.mpr ⟨he, by simp [hs]⟩, rfl⟩
    have h2 : 0 <
        ((st.edges.filter (fun e' => e'.target == n)).map (fun e' => e'.id)).count
          e.id := by
      rw [List.count_pos_iff]
      exact List.mem_map.mpr ⟨e, List.mem_filter.mpr ⟨he, by simp [ht]⟩, rfl⟩
    omega
  refine ⟨hcnt, ?_⟩
  cases hdel : deleteNode st n with
  | error e2 => rfl
  | ok st' =>
    exfalso
    rw [deleteNode] at hdel
    cases hd : deleteEdgesLoop st (cascadeEdgeIds st n) with
    | error e3 => rw [hd] at hdel; cases hdel
    | ok st1 =>
      have hnd := deleteEdgesLoop_ok_nodup _ _ _ hd
      have hle := List.nodup_iff_count_le_one.mp hnd e.id
      omega

/-- Witness for C10: a concrete store with one self-loop edge. -/
theorem deleteNode_selfloop_double_delete_witness :
    2 ≤ (cascadeEdgeIds
        { nodes := [{ id := 0, type := .note, content := "", x := 0, y := 0,
                      width := 300, height := 150, createdAt := 0, updatedAt := 0 }],
          edges := [{ id := 1, source := 0, target := 0, createdAt := 0 }],
          voiceNotes := [], nextId := 2, now := 0 } 0).count 1 ∧
    (deleteNode
        { nodes := [{ id := 0, type := .note, content := "", x := 0, y := 0,
                      width := 300, height := 150, createdAt := 0, updatedAt := 0 }],
          edges := [{ id := 1, source := 0, target := 0, createdAt := 0 }],
          voiceNotes := [], nextId := 2, now := 0 } 0).isOk = false :=
  deleteNode_selfloop_double_delete
    { nodes := [{ id := 0, type := .note, content := "", x := 0, y := 0,
                  width := 300, height := 150, createdAt := 0, updatedAt := 0 }],
      edges := [{ id := 1, source := 0, target := 0, createdAt := 0 }],
      voiceNotes := [], nextId := 2, now := 0 } 0
    { id := 1, source := 0, target := 0, createdAt := 0 }
    (by decide) rfl rfl

/-! ## Lemmas about similarity linking -/

theorem linkRelated_spec (n : Nat) (created : List Nat) :
    ∀ (hits : List RelatedHit) (st : DB),
      ∃ new : List Edge,
        (linkRelated n created st hits).edges = st.edges ++ new ∧
        new.length ≤ hits.length ∧
        (∀ e ∈ new, e.source = n ∧ e.target ≠ n ∧ e.target ∉ created ∧
          ∃ h ∈ hits, h.nodeId = e.target) ∧
        (linkRelated n created st hits).nodes = st.nodes ∧
        (linkRelated n created st hits).voiceNotes = st.voiceNotes ∧
        st.nextId ≤ (linkRelated n created st hits).nextId := by
  intro hits
  induction hits with
  | nil =>
    intro st
    exact ⟨[], by simp [linkRelated], by simp, by simp, rfl, rfl, Nat.le_refl _⟩
  | cons hit rest ih =>
    intro st
    simp only [linkRelated]
    by_cases hc : (hit.nodeId != n && !(created.contains hit.nodeId)) = true
    · rw [if_pos hc]
      obtain ⟨hne, hnc⟩ := Bool.and_eq_true_iff.mp hc
      set e0 : Edge :=
        { id := st.nextId, source := n, target := hit.nodeId
          label := some (toString hit.scorePct ++ "%"), createdAt := st.now } with he0
      have hst1 : (createEdge st n hit.nodeId
          (some (toString hit.scorePct ++ "%"))).2 =
          { st with edges := st.edges ++ [e0], nextId := st.nextId + 1 } := rfl
      rw [hst1]
      obtain ⟨new, h1, h2, h3, h4, h5, h6⟩ :=
        ih { st with edges := st.edges ++ [e0], nextId := st.nextId + 1 }
      refine ⟨e0 :: new, ?_, ?_, ?_, by simpa using h4, by simpa using h5, ?_⟩
      · rw [h1]
        simp
      · simp only [List.length_cons]
        omega
      · intro e he
        rcases List.mem_cons.mp he with he | he
        · subst he
          refine ⟨rfl, ?_, ?_, hit, by simp, rfl⟩
          · intro hq
            rw [he0] at hq
            simp only at hq
            rw [hq] at hne
            simp at hne
          · intro hq
            rw [he0] at hq
            simp only at hq
            have hq2 : created.contains hit.nodeId = true := List.elem_iff.mpr hq
            rw [hq2] at hnc
            simp at hnc
        · obtain ⟨ha, hb, hcc, hh, hhm, hhe⟩ := h3 e he
          exact ⟨ha, hb, hcc, hh, List.mem_cons_of_mem _ hhm, hhe⟩
      · simp only at h6
        omega
    · rw [if_neg hc]
      obtain ⟨new, h1, h2, h3, h4, h5, h6⟩ := ih st
      refine ⟨new, h1, Nat.le_trans h2 (by simp), ?_, h4, h5, h6⟩
      intro e he
      obtain ⟨ha, hb, hcc, hh, hhm, hhe⟩ := h3 e he
      exact ⟨ha, hb, hcc, hh, List.mem_cons_of_mem _ hhm, hhe⟩

/-- Claim C7: one invocation of the similarity-linking loop with at most
`k` neighbor hits creates no self-loop (every edge is pre-existing or has
`source ≠ target`) and at most `k` new edges. -/
theorem linkRelated_no_selfloop_atmost_k (st : DB) (n : Nat)
    (created : List Nat) (hits : List RelatedHit) (k : Nat)
    (hk : hits.length ≤ k) :
    (linkRelated n created st hits).edges.all
      (fun e => st.edges.contains e || !(e.source == e.target)) = true ∧
    (linkRelated n created st hits).edges.length ≤ st.edges.length + k := by
  obtain ⟨new, hedges, hlen, hprops, -, -, -⟩ := linkRelated_spec n created hits st
  constructor
  · rw [hedges, List.all_eq_true]
    intro e he
    rcases List.mem_append.mp he with h1 | h2
    · have hc : st.edges.contains e = true := List.elem_iff.mpr h1
      rw [hc, Bool.true_or]
    · obtain ⟨hsrc, htgt, -, -⟩ := hprops e h2
      have hne : (e.source == e.target) = false := by
        rw [hsrc]
        exact beq_eq_false_iff_ne.mpr (fun hq => htgt hq.symm)
      rw [hne]
      simp
  · rw [hedges, List.length_append]
    omega

/-- Witness for C7: one hit on a pre-existing node, `k = 1`. -/
theorem linkRelated_no_selfloop_atmost_k_witness :
    (linkRelated 1 [1]
        { nodes := [{ id := 0, type := .note, content := "", x := 0, y := 0,
                      width := 300, height := 150, createdAt := 0, updatedAt := 0 }],
          edges := [], voiceNotes := [], nextId := 3, now := 0 }
        [{ nodeId := 0, scorePct := 80 }]).edges.all
      (fun e => (([] : List Edge)).contains e || !(e.source == e.target)) = true ∧
    (linkRelated 1 [1]
        { nodes := [{ id := 0, type := .note, content := "", x := 0, y := 0,
                      width := 300, height := 150, createdAt := 0, updatedAt := 0 }],
          edges := [], voiceNotes := [], nextId := 3, now := 0 }
        [{ nodeId := 0, scorePct := 80 }]).edges.length ≤ ([] : List Edge).length + 1 :=
  linkRelated_no_selfloop_atmost_k
    { nodes := [{ id := 0, type := .note, content := "", x := 0, y := 0,
                  width := 300, height := 150, createdAt := 0, updatedAt := 0 }],
      edges := [], voiceNotes := [], nextId := 3, now := 0 }
    1 [1] [{ nodeId := 0, scorePct := 80 }] 1 (by decide)

/-! ## Claim C8: textual backlinks -/

/-- Claim C8 counterexample: for the empty title the query short-circuits
to `[]`, even when a note's `outgoingLinks` does contain the empty string
case-insensitively — so the "for every title string" claim fails at
`title = ""`. -/
theorem getWikiLinkBacklinks_empty_title :
    getWikiLinkBacklinks
        { nodes := [{ id := 0, type := .note, content := "x", x := 0, y := 0,
                      width := 300, height := 150, outgoingLinks := some [""],
                      createdAt := 0, updatedAt := 0 }],
          edges := [], voiceNotes := [], nextId := 1, now := 0 } "" = [] ∧
    (({ id := 0, type := .note, content := "x", x := 0, y := 0,
        width := 300, height := 150, outgoingLinks := some [""],
        createdAt := 0, updatedAt := 0 } : Node).outgoingLinks.getD []).any
      (fun link => jsToLower link == jsToLower "") = true := by
  exact ⟨by decide, by decide⟩

theorem backlink_pred_iff (note : Node) (target : String) :
    ((match note.outgoingLinks with
      | some links => links.any (fun link => jsToLower link == target)
      | none => false)
      || (extractWikiLinksFromContent note.content).contains target) = true ↔
    ((∃ link ∈ note.outgoingLinks.getD [], jsToLower link = target) ∨
      target ∈ extractWikiLinksFromContent note.content) := by
  cases ho : note.outgoingLinks with
  | none => simp [List.elem_iff]
  | some links => simp [List.any_eq_true, List.elem_iff]

/-- Claim C8 amended: for every non-empty title, `getTextualBacklinks`
returns exactly the `note` nodes in which the title appears
case-insensitively in `outgoingLinks` or in the live re-scan of the raw
content, each paired with its own extracted title; and when the stored
node ids are distinct the result has no duplicate entries. -/
theorem getWikiLinkBacklinks_membership (st : DB) (title : String)
    (h : title ≠ "") :
    (∀ (n : Node) (t : String),
      (n, t) ∈ getWikiLinkBacklinks st title ↔
        (n ∈ st.nodes ∧ n.type = .note ∧ t = extractNoteTitle n.content ∧
          ((∃ link ∈ n.outgoingLinks.getD [], jsToLower link = jsToLower title) ∨
            jsToLower title ∈ extractWikiLinksFromContent n.content))) ∧
    ((st.nodes.map (fun n => n.id)).Nodup →
      ((getWikiLinkBacklinks st title).map (fun p => p.1.id)).Nodup) := by
  constructor
  · intro n t
    rw [getWikiLinkBacklinks, if_neg h]
    constructor
    · intro hm
      obtain ⟨note, hnote, heq⟩ := List.mem_map.mp hm
      obtain ⟨hnm, hpred⟩ := List.mem_filter.mp hnote
      obtain ⟨hnm2, htype⟩ := List.mem_filter.mp hnm
      have hn : note = n := congrArg Prod.fst heq
      have ht2 : extractNoteTitle note.content = t := congrArg Prod.snd heq
      subst hn
      exact ⟨hnm2, by simpa using htype, ht2.symm,
        (backlink_pred_iff _ (jsToLower title)).mp hpred⟩
    · rintro ⟨hnm, htype, ht, hor⟩
      refine List.mem_map.mpr ⟨n, ?_, by rw [ht]⟩
      refine List.mem_filter.mpr ⟨List.mem_filter.mpr ⟨hnm, by simp [htype]⟩, ?_⟩
      exact (backlink_pred_iff n (jsToLower title)).mpr hor
  · intro hnd
    rw [getWikiLinkBacklinks, if_neg h]
    rw [List.map_map]
    have hcomp : ((fun p : Node × String => p.1.id) ∘
        fun note => (note, extractNoteTitle note.content)) = (fun n : Node => n.id) :=
      rfl
    rw [hcomp]
    refine List.Nodup.sublist ?_ hnd
    refine List.Sublist.map (fun n : Node => n.id) ?_
    exact List.Sublist.trans (List.filter_sublist _) (List.filter_sublist _)

/-- Witness for C8: one qualifying note for the title "Apple". -/
theorem getWikiLinkBacklinks_membership_witness :
    (({ id := 0, type := .note, content := "I like [[Apple]] pie", x := 0, y := 0,
        width := 300, height := 150, createdAt := 0, updatedAt := 0 } : Node),
      extractNoteTitle "I like [[Apple]] pie") ∈
      getWikiLinkBacklinks
        { nodes := [{ id := 0, type := .note, content := "I like [[Apple]] pie",
                      x := 0, y := 0, width := 300, height := 150,
                      createdAt := 0, updatedAt := 0 }],
          edges := [], voiceNotes := [], nextId := 1, now := 0 } "Apple" ∧
    ((getWikiLinkBacklinks
        { nodes := [{ id := 0, type := .note, content := "I like [[Apple]] pie",
                      x := 0, y := 0, width := 300, height := 150,
                      createdAt := 0, updatedAt := 0 }],
          edges := [], voiceNotes := [], nextId := 1, now := 0 } "Apple").map
      (fun p => p.1.id)).Nodup :=
  ⟨((getWikiLinkBacklinks_membership
      { nodes := [{ id := 0, type := .note, content := "I like [[Apple]] pie",
                    x := 0, y := 0, width := 300, height := 150,
                    createdAt := 0, updatedAt := 0 }],
        edges := [], voiceNotes := [], nextId := 1, now := 0 } "Apple"
      (by decide)).1 _ _).mpr
    ⟨by decide, rfl, rfl, Or.inr (by decide)⟩,
  (getWikiLinkBacklinks_membership
      { nodes := [{ id := 0, type := .note, content := "I like [[Apple]] pie",
                    x := 0, y := 0, width := 300, height := 150,
                    createdAt := 0, updatedAt := 0 }],
        edges := [], voiceNotes := [], nextId := 1, now := 0 } "Apple"
      (by decide)).2 (by decide)⟩

/-! ## Lemmas about voice-note status updates -/

theorem patchVN_id (status : VNStatus) (tr em : Option String) (now : Nat)
    (v : VoiceNote) : (patchVN status tr em now v).id = v.id := rfl

theorem patchVN_userId (status : VNStatus) (tr em : Option String) (now : Nat)
    (v : VoiceNote) : (patchVN status tr em now v).userId = v.userId := rfl

theorem find?_map_id_preserving {α : Type} (p : α → Bool) (g : α → α)
    (hg : ∀ a, p (g a) = p a) :
    ∀ l : List α, (l.map g).find? p = (l.find? p).map g := by
  intro l
  induction l with
  | nil => simp
  | cons a rest ih =>
    cases hp : p a with
    | true => simp [List.find?_cons, hg, hp]
    | false => simp [List.find?_cons, hg, hp, ih]

theorem updateStatus_ok (st : DB) (user : String) (id : Nat) (vn : VoiceNote)
    (hvn : getVoiceNote st user id = some vn) (status : VNStatus)
    (tr em : Option String) :
    updateStatus st user id status tr em =
      .ok { st with voiceNotes := st.voiceNotes.map (fun v =>
        if v.id == id then patchVN status tr em st.now v else v) } := by
  rw [updateStatus, hvn]

theorem getVoiceNote_after_patch (st : DB) (user : String) (id : Nat)
    (g : VoiceNote → VoiceNote) (hgid : ∀ v, (g v).id = v.id)
    (hguser : ∀ v, (g v).userId = v.userId) :
    getVoiceNote { st with voiceNotes := st.voiceNotes.map g } user id =
      (getVoiceNote st user id).map g := by
  rw [getVoiceNote, getVoiceNote]
  rw [show ({ st with voiceNotes := st.voiceNotes.map g } : DB).voiceNotes =
    st.voiceNotes.map g from rfl]
  rw [find?_map_id_preserving (fun v => v.id == id) g (fun v => by simp [hgid])]
  cases st.voiceNotes.find? (fun v => v.id == id) with
  | none => rfl
  | some vn =>
    rw [show Option.map g (some vn) = some (g vn) from rfl]
    simp only [Option.some_bind]
    rw [hguser vn]
    by_cases hu : (vn.userId == user) = true
    · rw [if_pos hu, if_pos hu]
      rfl
    · rw [if_neg hu, if_neg hu]
      rfl

theorem getVoiceNote_props (st : DB) (user : String) (id : Nat)
    (vn : VoiceNote) (h : getVoiceNote st user id = some vn) :
    (vn.id == id) = true ∧ (vn.userId == user) = true := by
  rw [getVoiceNote] at h
  cases hf : st.voiceNotes.find? (fun v => v.id == id) with
  | none => rw [hf] at h; cases h
  | some v0 =>
    rw [hf] at h
    simp only [Option.some_bind] at h
    split at h
    · cases h
      have hfs := List.find?_some hf
      exact ⟨hfs, by assumption⟩
    · cases h

theorem process_eq_ok (st : DB) (user : String) (vnId : Nat) (vn : VoiceNote)
    (hvn : getVoiceNote st user vnId = some vn) (st1 : DB)
    (h1 : updateStatus st user vnId .transcribing none none = .ok st1)
    (audioUrl : Option String) (transcribe : Except String String)
    (extractConcepts : String → List String → Except String (List Concept))
    (embed : String → Except String (List Int))
    (related : DB → String → Except String (List RelatedHit))
    (baseX baseY : Int) :
    process st user vnId audioUrl transcribe extractConcepts embed related
        baseX baseY =
      processCatch user vnId (processTry user vnId audioUrl transcribe
        extractConcepts embed related baseX baseY st1) := by
  unfold process
  rw [hvn, h1]

/-! ## Claim C5: transcription failure -/

/-- Claim C5: when the transcription call fails, the voice note ends in
status `error` with a non-empty `errorMessage`, the outcome is the
re-raised error, and no nodes (and no edges) are created. -/
theorem process_transcription_failure (st : DB) (user : String) (vnId : Nat)
    (vn : VoiceNote) (hvn : getVoiceNote st user vnId = some vn)
    (audioUrl errText : String)
    (extractConcepts : String → List String → Except String (List Concept))
    (embed : String → Except String (List Int))
    (related : DB → String → Except String (List RelatedHit))
    (baseX baseY : Int) :
    let r := process st user vnId (some audioUrl) (.error errText)
      extractConcepts embed related baseX baseY
    r.1.nodes = st.nodes ∧
    r.1.edges = st.edges ∧
    (getVoiceNote r.1 user vnId).map (fun v => (v.status, v.errorMessage)) =
      some (VNStatus.error, some ("Transcription failed: " ++ errText)) ∧
    ("Transcription failed: " ++ errText) ≠ "" ∧
    r.2 = .error ("Transcription failed: " ++ errText) := by
  intro r
  have hid := (getVoiceNote_props st user vnId vn hvn).1
  set msg := "Transcription failed: " ++ errText with hmsg
  set g1 : VoiceNote → VoiceNote :=
    fun v => if v.id == vnId then patchVN .transcribing none none st.now v else v
    with hg1
  set st1 : DB := { st with voiceNotes := st.voiceNotes.map g1 } with hst1
  have h1 : updateStatus st user vnId .transcribing none none = .ok st1 :=
    updateStatus_ok st user vnId vn hvn .transcribing none none
  have hg1id : ∀ v, (g1 v).id = v.id := by
    intro v
    rw [hg1]
    by_cases hv : (v.id == vnId) = true <;> simp [hv, patchVN_id]
  have hg1user : ∀ v, (g1 v).userId = v.userId := by
    intro v
    rw [hg1]
    by_cases hv : (v.id == vnId) = true <;> simp [hv, patchVN_userId]
  have hvn1 : getVoiceNote st1 user vnId = some (g1 vn) := by
    rw [hst1, getVoiceNote_after_patch st user vnId g1 hg1id hg1user, hvn]
    rfl
  set g2 : VoiceNote → VoiceNote :=
    fun v => if v.id == vnId then patchVN .error none (some msg) st1.now v else v
    with hg2
  set st3 : DB := { st1 with voiceNotes := st1.voiceNotes.map g2 } with hst3
  have h2 : updateStatus st1 user vnId .error none (some msg) = .ok st3 :=
    updateStatus_ok st1 user vnId (g1 vn) hvn1 .error none (some msg)
  have hpt : processTry user vnId (some audioUrl) (Except.error errText)
      extractConcepts embed related baseX baseY st1 = (st1, .error msg) := rfl
  have hg2id : ∀ v, (g2 v).id = v.id := by
    intro v
    rw [hg2]
    by_cases hv : (v.id == vnId) = true <;> simp [hv, patchVN_id]
  have hg2user : ∀ v, (g2 v).userId = v.userId := by
    intro v
    rw [hg2]
    by_cases hv : (v.id == vnId) = true <;> simp [hv, patchVN_userId]
  have hr : r = (st3, .error msg) := by
    show process st user vnId (some audioUrl) (.error errText)
      extractConcepts embed related baseX baseY = (st3, .error msg)
    rw [process_eq_ok st user vnId vn hvn st1 h1, hpt]
    simp only [processCatch]
    rw [h2]
  have hvn3 : getVoiceNote st3 user vnId = some (g2 (g1 vn)) := by
    rw [hst3, getVoiceNote_after_patch st1 user vnId g2 hg2id hg2user, hvn1]
    rfl
  have hgid1 : ((g1 vn).id == vnId) = true := by
    rw [hg1id vn]
    exact hid
  have hmsgne : msg ≠ "" := by
    intro hq
    have hl := congrArg String.length hq
    rw [hmsg, String.length_append] at hl
    rw [show "Transcription failed: ".length = 22 from rfl,
      show "".length = 0 from rfl] at hl
    omega
  refine ⟨by rw [hr], by rw [hr], ?_, hmsgne, by rw [hr]⟩
  rw [hr]
  show (getVoiceNote st3 user vnId).map (fun v => (v.status, v.errorMessage)) = _
  rw [hvn3]
  rw [show g2 (g1 vn) = patchVN .error none (some msg) st1.now (g1 vn) from by
    rw [hg2]
    simp [hgid1]]
  rfl

/-- Witness for C5: a concrete one-voice-note store with a failing
transcription call. -/
theorem process_transcription_failure_witness :
    let r := process
      { nodes := [], edges := [],
        voiceNotes := [{ id := 0, userId := "u", fileId := 0, duration := 1,
                         status := .uploaded, createdAt := 0, updatedAt := 0 }],
        nextId := 0, now := 5 }
      "u" 0 (some "url") (.error "boom")
      (fun _ _ => .ok []) (fun _ => .ok []) (fun _ _ => .ok []) 100 100
    r.1.nodes = ([] : List Node) ∧
    r.1.edges = ([] : List Edge) ∧
    (getVoiceNote r.1 "u" 0).map (fun v => (v.status, v.errorMessage)) =
      some (VNStatus.error, some ("Transcription failed: " ++ "boom")) ∧
    ("Transcription failed: " ++ "boom") ≠ "" ∧
    r.2 = .error ("Transcription failed: " ++ "boom") :=
  process_transcription_failure
    { nodes := [], edges := [],
      voiceNotes := [{ id := 0, userId := "u", fileId := 0, duration := 1,
                       status := .uploaded, createdAt := 0, updatedAt := 0 }],
      nextId := 0, now := 5 }
    "u" 0
    { id := 0, userId := "u", fileId := 0, duration := 1,
      status := .uploaded, createdAt := 0, updatedAt := 0 }
    (by decide) "url" "boom"
    (fun _ _ => .ok []) (fun _ => .ok []) (fun _ _ => .ok []) 100 100

/-! ## Lemmas about the concept loop -/

theorem map_id_on {α : Type} (f : α → α) :
    ∀ l : List α, (∀ a ∈ l, f a = a) → l.map f = l := by
  intro l h
  induction l with
  | nil => rfl
  | cons a rest ih =>
    rw [List.map_cons, h a (by simp), ih (fun b hb => h b (by simp [hb]))]

theorem updateNodeEmbedding_ok_shape (st : DB) (id : Nat) (vec : List Int)
    (st' : DB) (h : updateNodeEmbedding st id vec = .ok st') :
    st' = { st with nodes := st.nodes.map (fun n =>
      if n.id == id then { n with embedding := some vec } else n) } := by
  unfold updateNodeEmbedding at h
  split at h
  · cases h; rfl
  · cases h

theorem conceptsLoop_spec (vnId : Nat) (embed : String → Except String (List Int))
    (related : DB → String → Except String (List RelatedHit)) (baseX baseY : Int)
    (hrel : ∀ db q hits, related db q = .ok hits →
      ∀ hh ∈ hits, ∃ node ∈ db.nodes, node.id = hh.nodeId) :
    ∀ (concepts : List Concept) (st : DB) (created : List Nat) (xOffset : Int),
      (∀ n ∈ st.nodes, n.id < st.nextId) →
      (∀ i ∈ created, i < st.nextId) →
      (st.nextId ≤
        (conceptsLoop vnId embed related baseX baseY st created xOffset
          concepts).1.nextId ∧
      (∀ n ∈ (conceptsLoop vnId embed related baseX baseY st created xOffset
          concepts).1.nodes,
        n.id <
          (conceptsLoop vnId embed related baseX baseY st created xOffset
            concepts).1.nextId) ∧
      (∃ newNodes : List Node,
        (conceptsLoop vnId embed related baseX baseY st created xOffset
          concepts).1.nodes = st.nodes ++ newNodes ∧
        (conceptsLoop vnId embed related baseX baseY st created xOffset
          concepts).2.1 = created ++ newNodes.map (fun n => n.id) ∧
        ∀ n ∈ newNodes, st.nextId ≤ n.id) ∧
      (conceptsLoop vnId embed related baseX baseY st created xOffset
        concepts).1.voiceNotes = st.voiceNotes ∧
      (∀ e ∈ (conceptsLoop vnId embed related baseX baseY st created xOffset
          concepts).1.edges,
        e ∈ st.edges ∨
          (e.source ∈ (conceptsLoop vnId embed related baseX baseY st created
              xOffset concepts).2.1 ∧
            e.target ∉ (conceptsLoop vnId embed related baseX baseY st created
              xOffset concepts).2.1 ∧
            e.target <
              (conceptsLoop vnId embed related baseX baseY st created xOffset
                concepts).1.nextId))) := by
  intro concepts
  induction concepts with
  | nil =>
    intro st created xOffset hwf hcr
    refine ⟨Nat.le_refl _, hwf, ⟨[], by simp [conceptsLoop], by simp [conceptsLoop],
      by simp⟩, rfl, ?_⟩
    intro e he
    exact Or.inl he
  | cons c rest ih =>
    intro st created xOffset hwf hcr
    set nd : Node :=
      { id := st.nextId, type := .note, content := conceptContent c
        x := baseX + xOffset, y := baseY, width := 300, height := 150
        sourceType := .voice, sourceId := some vnId
        createdAt := st.now, updatedAt := st.now } with hnd
    set stA : DB :=
      { st with nodes := st.nodes ++ [nd], nextId := st.nextId + 1 } with hstA
    have hcreate : createNode st
        { type := .note, content := conceptContent c, x := baseX + xOffset,
          y := baseY, sourceType := some .voice, sourceId := some vnId } =
        (st.nextId, stA) := rfl
    have herrBranch : ∀ (stE : DB) (ndX : Node), ndX.id = st.nextId →
        stE.nodes = st.nodes ++ [ndX] → stE.nextId = st.nextId + 1 →
        stE.voiceNotes = st.voiceNotes → stE.edges = st.edges →
        (st.nextId ≤ stE.nextId ∧
        (∀ n ∈ stE.nodes, n.id < stE.nextId) ∧
        (∃ newNodes : List Node, stE.nodes = st.nodes ++ newNodes ∧
          created ++ [st.nextId] = created ++ newNodes.map (fun n => n.id) ∧
          ∀ n ∈ newNodes, st.nextId ≤ n.id) ∧
        stE.voiceNotes = st.voiceNotes ∧
        (∀ e ∈ stE.edges, e ∈ st.edges ∨
          (e.source ∈ created ++ [st.nextId] ∧
            e.target ∉ created ++ [st.nextId] ∧ e.target < stE.nextId))) := by
      intro stE ndX hndXid hn he hv hedge
      refine ⟨by omega, ?_, ⟨[ndX], by rw [hn], by simp [hndXid],
        by simp [hndXid]⟩, hv, ?_⟩
      · intro n hmem
        rw [hn] at hmem
        rcases List.mem_append.mp hmem with hm | hm
        · have := hwf n hm
          omega
        · rw [List.mem_singleton.mp hm, hndXid, he]
          omega
      · intro e hmem
        rw [hedge] at hmem
        exact Or.inl hmem
    cases hembed : embed c.content with
    | error e =>
      have hres : conceptsLoop vnId embed related baseX baseY st created xOffset
          (c :: rest) = (stA, created ++ [st.nextId], Except.error e) := by
        simp only [conceptsLoop, hcreate, hembed]
      rw [hres]
      exact herrBranch stA nd (by rw [hnd]) rfl rfl rfl rfl
    | ok vec =>
      cases hupd : updateNodeEmbedding stA st.nextId vec with
      | error e =>
        have hres : conceptsLoop vnId embed related baseX baseY st created xOffset
            (c :: rest) = (stA, created ++ [st.nextId], Except.error e) := by
          simp only [conceptsLoop, hcreate, hembed, hupd]
        rw [hres]
        exact herrBranch stA nd (by rw [hnd]) rfl rfl rfl rfl
      | ok st2 =>
        have hst2 := updateNodeEmbedding_ok_shape stA st.nextId vec st2 hupd
        set ndE : Node := ({ nd with embedding := some vec } : Node) with hndE
        have hndEid : ndE.id = st.nextId := by rw [hndE, hnd]
        have hst2' : st2 =
            { st with nodes := st.nodes ++ [ndE], nextId := st.nextId + 1 } := by
          rw [hst2, hstA]
          simp only [List.map_append]
          rw [map_id_on _ st.nodes ?_]
          · rw [show [nd].map (fun n =>
              if n.id == st.nextId then { n with embedding := some vec } else n) =
                [ndE] from by simp [hnd, hndE]]
          · intro a ha
            have hlt := hwf a ha
            rw [if_neg ?_]
            simp only [beq_iff_eq]
            omega
        have hndEid : ndE.id = st.nextId := by rw [hndE, hnd]
        have hn2 : st2.nodes = st.nodes ++ [ndE] := by rw [hst2']
        have hx2 : st2.nextId = st.nextId + 1 := by rw [hst2']
        have hv2 : st2.voiceNotes = st.voiceNotes := by rw [hst2']
        have hed2 : st2.edges = st.edges := by rw [hst2']
        have hwf2 : ∀ n ∈ st2.nodes, n.id < st2.nextId := by
          intro n hn
          rw [hn2] at hn
          rw [hx2]
          rcases List.mem_append.mp hn with hm | hm
          · have := hwf n hm
            omega
          · rw [List.mem_singleton.mp hm, hndEid]
            omega
        cases hrelated : related st2 c.content with
        | error e =>
          have hres : conceptsLoop vnId embed related baseX baseY st created
              xOffset (c :: rest) =
              (st2, created ++ [st.nextId], Except.error e) := by
            simp only [conceptsLoop, hcreate, hembed, hupd, hrelated]
          rw [hres]
          exact herrBranch st2 ndE hndEid hn2 hx2 hv2 hed2
        | ok hits =>
          have hres : conceptsLoop vnId embed related baseX baseY st created
              xOffset (c :: rest) =
              conceptsLoop vnId embed related baseX baseY
                (linkRelated st.nextId (created ++ [st.nextId]) st2 hits)
                (created ++ [st.nextId]) (xOffset + 350) rest := by
            simp only [conceptsLoop, hcreate, hembed, hupd, hrelated]
          obtain ⟨newE, hE1, hE2, hE3, hE4, hE5, hE6⟩ :=
            linkRelated_spec st.nextId (created ++ [st.nextId]) hits st2
          have h6x : st.nextId + 1 ≤
              (linkRelated st.nextId (created ++ [st.nextId]) st2 hits).nextId := by
            rw [← hx2]
            exact hE6
          have hwf3 : ∀ n ∈
              (linkRelated st.nextId (created ++ [st.nextId]) st2 hits).nodes,
              n.id <
                (linkRelated st.nextId (created ++ [st.nextId]) st2 hits).nextId := by
            intro n hn
            rw [hE4] at hn
            exact Nat.lt_of_lt_of_le (hwf2 n hn) hE6
          have hcr3 : ∀ i ∈ created ++ [st.nextId],
              i < (linkRelated st.nextId (created ++ [st.nextId]) st2 hits).nextId := by
            intro i hi
            rcases List.mem_append.mp hi with hm | hm
            · have := hcr i hm
              omega
            · rw [List.mem_singleton.mp hm]
              omega
          obtain ⟨hI1, hI2, ⟨new2, hN1, hN2, hN3⟩, hI4, hI5⟩ :=
            ih (linkRelated st.nextId (created ++ [st.nextId]) st2 hits)
              (created ++ [st.nextId]) (xOffset + 350) hwf3 hcr3
          rw [hres]
          refine ⟨by omega, hI2, ⟨ndE :: new2, ?_, ?_, ?_⟩, ?_, ?_⟩
          · rw [hN1, hE4, hn2]
            simp
          · rw [hN2]
            simp [hndEid]
          · intro n hn
            rcases List.mem_cons.mp hn with hm | hm
            · rw [hm, hndEid]
            · have := hN3 n hm
              omega
          · rw [hI4, hE5, hv2]
          · intro e he
            rcases hI5 e he with hin3 | ⟨hsf, htf, hlt⟩
            · rw [hE1] at hin3
              rcases List.mem_append.mp hin3 with hin2 | hinNew
              · rw [hed2] at hin2
                exact Or.inl hin2
              · right
                obtain ⟨hsrcE, htgtNe, htgtNc, hh, hhm, hhid⟩ := hE3 e hinNew
                obtain ⟨node, hnodem, hnodeid⟩ :=
                  hrel st2 c.content hits hrelated hh hhm
                have htlt : e.target < st2.nextId := by
                  rw [← hhid, ← hnodeid]
                  exact hwf2 node hnodem
                have htlt' : e.target < st.nextId + 1 := by
                  rw [← hx2]
                  exact htlt
                refine ⟨?_, ?_, ?_⟩
                · rw [hN2]
                  refine List.mem_append_left _ ?_
                  rw [hsrcE]
                  exact List.mem_append_right _ (by simp)
                · rw [hN2]
                  intro hmem
                  rcases List.mem_append.mp hmem with hm1 | hm2
                  · exact htgtNc hm1
                  · obtain ⟨n2, hn2m, hn2id⟩ := List.mem_map.mp hm2
                    have hge := hN3 n2 hn2m
                    rw [hn2id] at hge
                    omega
                · omega
            · exact Or.inr ⟨hsf, htf, hlt⟩

theorem updateStatus_ok_shape (st : DB) (user : String) (id : Nat)
    (status : VNStatus) (tr em : Option String) (st' : DB)
    (h : updateStatus st user id status tr em = .ok st') :
    st'.nodes = st.nodes ∧ st'.edges = st.edges ∧ st'.nextId = st.nextId := by
  unfold updateStatus at h
  split at h
  · cases h
  · cases h
    exact ⟨rfl, rfl, rfl⟩

theorem processCatch_shape (user : String) (vnId : Nat)
    (p : DB × Except String Nat) :
    (processCatch user vnId p).1.nodes = p.1.nodes ∧
    (processCatch user vnId p).1.edges = p.1.edges := by
  rcases p with ⟨stt, out⟩
  cases out with
  | ok n => exact ⟨rfl, rfl⟩
  | error e =>
    simp only [processCatch]
    cases hupd : updateStatus stt user vnId .error none (some e) with
    | error e2 => exact ⟨rfl, rfl⟩
    | ok st3 =>
      obtain ⟨hn, he, -⟩ := updateStatus_ok_shape stt user vnId _ _ _ st3 hupd
      exact ⟨hn, he⟩

theorem newNodeIds_append (st F : DB) (newNodes : List Node)
    (hF : F.nodes = st.nodes ++ newNodes)
    (hfresh : ∀ n ∈ newNodes, ∀ m ∈ st.nodes, m.id ≠ n.id) :
    newNodeIds st F = newNodes.map (fun n => n.id) := by
  rw [newNodeIds, hF, List.filter_append]
  have h1 : st.nodes.filter
      (fun n => !(st.nodes.any (fun m => m.id == n.id))) = [] := by
    rw [List.filter_eq_nil_iff]
    intro a ha
    have : st.nodes.any (fun m => m.id == a.id) = true :=
      List.any_eq_true.mpr ⟨a, ha, by simp⟩
    simp [this]
  have h2 : newNodes.filter
      (fun n => !(st.nodes.any (fun m => m.id == n.id))) = newNodes := by
    rw [List.filter_eq_self]
    intro a ha
    have : st.nodes.any (fun m => m.id == a.id) = false := by
      rw [List.any_eq_false]
      intro m hm
      simp only [beq_iff_eq]
      exact hfresh a ha m hm
    simp [this]
  rw [h1, h2]
  simp

theorem processComplete_shape (user : String) (vnId : Nat) (st3 : DB)
    (count : Nat) :
    (processComplete user vnId st3 count).1.nodes = st3.nodes ∧
    (processComplete user vnId st3 count).1.edges = st3.edges := by
  unfold processComplete
  cases hc : updateStatus st3 user vnId .completed none none with
  | error e => exact ⟨rfl, rfl⟩
  | ok st4 =>
    obtain ⟨hn, he, -⟩ := updateStatus_ok_shape st3 user vnId _ _ _ st4 hc
    exact ⟨hn, he⟩

theorem processTry_shape (user : String) (vnId : Nat) (audioUrl : Option String)
    (transcribe : Except String String)
    (extractConcepts : String → List String → Except String (List Concept))
    (embed : String → Except String (List Int))
    (related : DB → String → Except String (List RelatedHit))
    (baseX baseY : Int) (st1 : DB)
    (hwf1 : ∀ n ∈ st1.nodes, n.id < st1.nextId)
    (hrel : ∀ db q hits, related db q = .ok hits →
      ∀ hh ∈ hits, ∃ node ∈ db.nodes, node.id = hh.nodeId) :
    ∃ newNodes : List Node,
      (processTry user vnId audioUrl transcribe extractConcepts embed related
        baseX baseY st1).1.nodes = st1.nodes ++ newNodes ∧
      (∀ n ∈ newNodes, st1.nextId ≤ n.id) ∧
      (∀ e ∈ (processTry user vnId audioUrl transcribe extractConcepts embed
          related baseX baseY st1).1.edges,
        e ∈ st1.edges ∨
          (e.source ∈ newNodes.map (fun n => n.id) ∧
            e.target ∉ newNodes.map (fun n => n.id))) := by
  cases audioUrl with
  | none => exact ⟨[], by simp [processTry], by simp, fun e he => Or.inl he⟩
  | some url =>
    cases transcribe with
    | error errText => exact ⟨[], by simp [processTry], by simp, fun e he => Or.inl he⟩
    | ok transcription =>
      have heq0 : processTry user vnId (some url) (Except.ok transcription)
          extractConcepts embed related baseX baseY st1 =
          (match updateStatus st1 user vnId .processing (some transcription) none with
           | .error e => (st1, .error e)
           | .ok stX =>
             processAfterExtract user vnId embed related baseX baseY stX
               (extractConcepts transcription
                 (stX.nodes.map (fun n => n.content)))) := rfl
      cases hu : updateStatus st1 user vnId .processing (some transcription) none with
      | error e =>
        have heq : processTry user vnId (some url) (Except.ok transcription)
            extractConcepts embed related baseX baseY st1 = (st1, .error e) := by
          rw [heq0, hu]
        rw [heq]
        exact ⟨[], by simp, by simp, fun e' he' => Or.inl he'⟩
      | ok st2 =>
        have heq : processTry user vnId (some url) (Except.ok transcription)
            extractConcepts embed related baseX baseY st1 =
            processAfterExtract user vnId embed related baseX baseY st2
              (extractConcepts transcription (st2.nodes.map (fun n => n.content))) := by
          rw [heq0, hu]
        rw [heq]
        obtain ⟨hn2, he2, hx2⟩ := updateStatus_ok_shape st1 user vnId _ _ _ st2 hu
        have hwf2 : ∀ n ∈ st2.nodes, n.id < st2.nextId := by
          rw [hn2, hx2]
          exact hwf1
        cases hex : extractConcepts transcription (st2.nodes.map (fun n => n.content)) with
        | error e =>
          refine ⟨[], ?_, by simp, ?_⟩
          · show st2.nodes = st1.nodes ++ []
            rw [hn2]
            simp
          · intro e' he'
            have hm : e' ∈ st2.edges := he'
            rw [he2] at hm
            exact Or.inl hm
        | ok concepts =>
          obtain ⟨hL1, hL2, ⟨newNodes, hLn, hLc, hLf⟩, hL4, hL5⟩ :=
            conceptsLoop_spec vnId embed related baseX baseY hrel concepts st2 [] 0
              hwf2 (by simp)
          have hcreated : (conceptsLoop vnId embed related baseX baseY st2 [] 0
              concepts).2.1 = newNodes.map (fun n => n.id) := by
            rw [hLc]
            simp
          have hnodesAll : (conceptsLoop vnId embed related baseX baseY st2 [] 0
              concepts).1.nodes = st1.nodes ++ newNodes := by
            rw [hLn, hn2]
          have hfreshAll : ∀ n ∈ newNodes, st1.nextId ≤ n.id := by
            intro n hn
            have := hLf n hn
            rw [hx2] at this
            exact this
          have hedgesAll : ∀ e ∈ (conceptsLoop vnId embed related baseX baseY st2
              [] 0 concepts).1.edges,
              e ∈ st1.edges ∨
                (e.source ∈ newNodes.map (fun n => n.id) ∧
                  e.target ∉ newNodes.map (fun n => n.id)) := by
            intro e he
            rcases hL5 e he with hin | ⟨hs, ht, -⟩
            · rw [he2] at hin
              exact Or.inl hin
            · rw [hcreated] at hs ht
              exact Or.inr ⟨hs, ht⟩
          simp only [processAfterExtract, processAfterLoop]
          cases hout : (conceptsLoop vnId embed related baseX baseY st2 [] 0
              concepts).2.2 with
          | error e => exact ⟨newNodes, hnodesAll, hfreshAll, hedgesAll⟩
          | ok u =>
            obtain ⟨hcn, hce⟩ := processComplete_shape user vnId
              (conceptsLoop vnId embed related baseX baseY st2 [] 0 concepts).1
              concepts.length
            refine ⟨newNodes, ?_, hfreshAll, ?_⟩
            · show (processComplete user vnId
                (conceptsLoop vnId embed related baseX baseY st2 [] 0 concepts).1
                concepts.length).1.nodes = st1.nodes ++ newNodes
              rw [hcn, hnodesAll]
            · intro e he
              have he2x : e ∈ (processComplete user vnId
                  (conceptsLoop vnId embed related baseX baseY st2 [] 0
                    concepts).1 concepts.length).1.edges := he
              rw [hce] at he2x
              exact hedgesAll e he2x

/-! ## Claim C6: intra-batch linking -/

/-- Claim C6 counterexample: a two-concept run in which the neighbor search
for the second concept returns precisely the node created for the first
concept of the same run — yet the run completes with zero edges: the
`createdNodeIds` guard excludes same-batch nodes, so the claimed
intra-batch edge is never created. -/
theorem process_intra_batch_edge_not_created :
    (process
      { nodes := [], edges := [],
        voiceNotes := [{ id := 0, userId := "u", fileId := 0, duration := 1,
                         status := .uploaded, createdAt := 0, updatedAt := 0 }],
        nextId := 0, now := 5 }
      "u" 0 (some "url") (.ok "t")
      (fun _ _ => .ok [{ title := "T1", content := "a" },
                       { title := "T2", content := "b" }])
      (fun _ => .ok [1])
      (fun _ q => if q == "b" then .ok [{ nodeId := 0, scorePct := 90 }]
        else .ok [])
      100 100).1.edges = [] ∧
    (process
      { nodes := [], edges := [],
        voiceNotes := [{ id := 0, userId := "u", fileId := 0, duration := 1,
                         status := .uploaded, createdAt := 0, updatedAt := 0 }],
        nextId := 0, now := 5 }
      "u" 0 (some "url") (.ok "t")
      (fun _ _ => .ok [{ title := "T1", content := "a" },
                       { title := "T2", content := "b" }])
      (fun _ => .ok [1])
      (fun _ q => if q == "b" then .ok [{ nodeId := 0, scorePct := 90 }]
        else .ok [])
      100 100).1.nodes.map (fun n => n.id) = [0, 1] ∧
    (process
      { nodes := [], edges := [],
        voiceNotes := [{ id := 0, userId := "u", fileId := 0, duration := 1,
                         status := .uploaded, createdAt := 0, updatedAt := 0 }],
        nextId := 0, now := 5 }
      "u" 0 (some "url") (.ok "t")
      (fun _ _ => .ok [{ title := "T1", content := "a" },
                       { title := "T2", content := "b" }])
      (fun _ => .ok [1])
      (fun _ q => if q == "b" then .ok [{ nodeId := 0, scorePct := 90 }]
        else .ok [])
      100 100).2.toOption = some 2 := by
  exact ⟨by decide, by decide, by decide⟩

/-- Claim C6 amended: each concept's similarity step does run against the
current graph, but the `createdNodeIds` guard excludes every node created
in the same run from edge creation — so every edge in the final store is
either pre-existing, or goes from a node created this run to a node NOT
created this run: no intra-batch edge is ever created. -/
theorem process_no_intra_batch_edges (st : DB) (user : String) (vnId : Nat)
    (audioUrl : Option String) (transcribe : Except String String)
    (extractConcepts : String → List String → Except String (List Concept))
    (embed : String → Except String (List Int))
    (related : DB → String → Except String (List RelatedHit))
    (baseX baseY : Int)
    (hwf : ∀ n ∈ st.nodes, n.id < st.nextId)
    (hrel : ∀ db q hits, related db q = .ok hits →
      ∀ hh ∈ hits, ∃ node ∈ db.nodes, node.id = hh.nodeId) :
    (process st user vnId audioUrl transcribe extractConcepts embed related
        baseX baseY).1.edges.all (fun e =>
      st.edges.contains e ||
        ((newNodeIds st (process st user vnId audioUrl transcribe
            extractConcepts embed related baseX baseY).1).contains e.source &&
          !((newNodeIds st (process st user vnId audioUrl transcribe
              extractConcepts embed related baseX baseY).1).contains
            e.target))) = true := by
  cases hg : getVoiceNote st user vnId with
  | none =>
    have hfin : process st user vnId audioUrl transcribe extractConcepts embed
        related baseX baseY = (st, .error "Voice note not found") := by
      unfold process
      rw [hg]
    rw [hfin]
    rw [List.all_eq_true]
    intro e he
    have hc : st.edges.contains e = true := List.elem_iff.mpr he
    rw [hc, Bool.true_or]
  | some vn =>
    have h1 := updateStatus_ok st user vnId vn hg .transcribing none none
    set st1 : DB := { st with voiceNotes := st.voiceNotes.map (fun v =>
      if v.id == vnId then patchVN .transcribing none none st.now v else v) }
      with hst1
    have hA := process_eq_ok st user vnId vn hg st1 h1 audioUrl transcribe
      extractConcepts embed related baseX baseY
    rw [hA]
    have hst1n : st1.nodes = st.nodes := rfl
    have hst1e : st1.edges = st.edges := rfl
    have hst1x : st1.nextId = st.nextId := rfl
    have hwf1 : ∀ n ∈ st1.nodes, n.id < st1.nextId := hwf
    obtain ⟨newNodes, hTn, hTf, hTe⟩ := processTry_shape user vnId audioUrl
      transcribe extractConcepts embed related baseX baseY st1 hwf1 hrel
    obtain ⟨hCn, hCe⟩ := processCatch_shape user vnId (processTry user vnId
      audioUrl transcribe extractConcepts embed related baseX baseY st1)
    have hFn : (processCatch user vnId (processTry user vnId audioUrl transcribe
        extractConcepts embed related baseX baseY st1)).1.nodes =
        st.nodes ++ newNodes := by
      rw [hCn, hTn, hst1n]
    have hfresh : ∀ n ∈ newNodes, ∀ m ∈ st.nodes, m.id ≠ n.id := by
      intro n hn m hm
      have ha := hTf n hn
      have hb := hwf m hm
      rw [hst1x] at ha
      omega
    have hids := newNodeIds_append st
      (processCatch user vnId (processTry user vnId audioUrl transcribe
        extractConcepts embed related baseX baseY st1)).1 newNodes hFn hfresh
    rw [List.all_eq_true]
    intro e he
    rw [hCe] at he
    rcases hTe e he with hin | ⟨hs, ht⟩
    · rw [hst1e] at hin
      have hc : st.edges.contains e = true := List.elem_iff.mpr hin
      rw [hc, Bool.true_or]
    · have hcs : (newNodeIds st (processCatch user vnId (processTry user vnId
          audioUrl transcribe extractConcepts embed related baseX baseY
          st1)).1).contains e.source = true := by
        rw [hids]
        exact List.elem_iff.mpr hs
      have hct : (newNodeIds st (processCatch user vnId (processTry user vnId
          audioUrl transcribe extractConcepts embed related baseX baseY
          st1)).1).contains e.target = false := by
        rw [hids]
        cases hb : (newNodes.map (fun n => n.id)).contains e.target with
        | false => rfl
        | true => exact absurd (List.elem_iff.mp hb) ht
      rw [hcs, hct]
      simp

/-- Witness for C6: a concrete single-concept run with an empty neighbor
set. -/
theorem process_no_intra_batch_edges_witness :
    (process
      { nodes := [], edges := [],
        voiceNotes := [{ id := 0, userId := "u", fileId := 0, duration := 1,
                         status := .uploaded, createdAt := 0, updatedAt := 0 }],
        nextId := 0, now := 5 }
      "u" 0 (some "url") (.ok "t")
      (fun _ _ => .ok [{ title := "T1", content := "a" }])
      (fun _ => .ok [1]) (fun _ _ => .ok ([] : List RelatedHit))
      100 100).1.edges.all (fun e =>
      (([] : List Edge)).contains e ||
        ((newNodeIds
            { nodes := [], edges := [],
              voiceNotes := [{ id := 0, userId := "u", fileId := 0, duration := 1,
                               status := .uploaded, createdAt := 0,
                               updatedAt := 0 }],
              nextId := 0, now := 5 }
            (process
              { nodes := [], edges := [],
                voiceNotes := [{ id := 0, userId := "u", fileId := 0,
                                 duration := 1, status := .uploaded,
                                 createdAt := 0, updatedAt := 0 }],
                nextId := 0, now := 5 }
              "u" 0 (some "url") (.ok "t")
              (fun _ _ => .ok [{ title := "T1", content := "a" }])
              (fun _ => .ok [1]) (fun _ _ => .ok ([] : List RelatedHit))
              100 100).1).contains e.source &&
          !((newNodeIds
              { nodes := [], edges := [],
                voiceNotes := [{ id := 0, userId := "u", fileId := 0,
                                 duration := 1, status := .uploaded,
                                 createdAt := 0, updatedAt := 0 }],
                nextId := 0, now := 5 }
              (process
                { nodes := [], edges := [],
                  voiceNotes := [{ id := 0, userId := "u", fileId := 0,
                                   duration := 1, status := .uploaded,
                                   createdAt := 0, updatedAt := 0 }],
                  nextId := 0, now := 5 }
                "u" 0 (some "url") (.ok "t")
                (fun _ _ => .ok [{ title := "T1", content := "a" }])
                (fun _ => .ok [1]) (fun _ _ => .ok ([] : List RelatedHit))
                100 100).1).contains e.target))) = true :=
  process_no_intra_batch_edges
    { nodes := [], edges := [],
      voiceNotes := [{ id := 0, userId := "u", fileId := 0, duration := 1,
                       status := .uploaded, createdAt := 0, updatedAt := 0 }],
      nextId := 0, now := 5 }
    "u" 0 (some "url") (.ok "t")
    (fun _ _ => .ok [{ title := "T1", content := "a" }])
    (fun _ => .ok [1]) (fun _ _ => .ok ([] : List RelatedHit)) 100 100
    (by intro n hn; cases hn)
    (by
      intro db q hits h hh hm
      cases h
      cases hm)

end Memex
